import Mathlib

/-!
Shallow embedding of the Meridian news/trend ranking and normalization core
(src/components/NewsDashboard.tsx and src/components/TrendDetection.tsx).

Strings are modelled as Lean strings (lists of characters); character counts
are codepoint counts, which agrees with the JS `.length` on the ASCII data the
pipeline handles.  JS numbers are modelled as rationals, with `Option ℚ` where
a value can be absent or NaN (`none` plays the role of NaN / missing).
-/

/-- ASCII lowercase of a string, as a character list (models `.toLowerCase()`). -/
def lowerL (s : String) : List Char := s.data.map Char.toLower

/-- Substring containment on character lists (models JS `String.includes`). -/
def listContains (needle : List Char) : List Char → Bool
  | [] => needle.isEmpty
  | c :: rest => needle.isPrefixOf (c :: rest) || listContains needle rest

/-- Decimal value of a digit run (models `parseInt(digits, 10)`). -/
def digitsToNat (ds : List Char) : Nat :=
  ds.foldl (fun n c => n * 10 + (c.toNat - 48)) 0

/-- Whitespace as matched by the regex class `\s` (core ASCII part). -/
def isJsSpace (c : Char) : Bool :=
  c = ' ' || c = '\t' || c = '\n' || c = '\r' || c = '\x0b' || c = '\x0c'

/-- The unit alternatives of the regex `(minute|min|hour|hr|day|d|h|m)`, in
alternation order. -/
def timeUnits : List (List Char) :=
  ["minute".data, "min".data, "hour".data, "hr".data, "day".data,
   "d".data, "h".data, "m".data]

/-- First match of the regex `(\d+)\s*(minute|min|hour|hr|day|d|h|m)` in a
character list, returning the captured integer amount.  The scan tries each
position left to right; at a digit it takes the maximal digit run (greedy
`\d+`; shrinking it can never help because no unit or space starts with a
digit), skips `\s*`, and asks whether some unit alternative starts there. -/
def findTimeMatch : List Char → Option Nat
  | [] => none
  | c :: rest =>
    if c.isDigit then
      let ds := (c :: rest).takeWhile Char.isDigit
      let after := ((c :: rest).dropWhile Char.isDigit).dropWhile isJsSpace
      if timeUnits.any (fun u => u.isPrefixOf after) then some (digitsToNat ds)
      else findTimeMatch rest
    else findTimeMatch rest

/-- Model of `parseRelativeTime` (NewsDashboard.tsx lines 29-41): free-text
relative age in minutes. -/
def parseRelativeTime (value : String) : Nat :=
  if value.isEmpty then 1440
  else
    let cleaned := lowerL value
    let fallback := if listContains "yesterday".data cleaned then 1440 else 720
    match findTimeMatch cleaned with
    | some amount =>
      if listContains "min".data cleaned then amount
      else if listContains "hour".data cleaned || listContains "hr".data cleaned
          || listContains "h".data cleaned then amount * 60
      else if listContains "day".data cleaned || listContains "d".data cleaned then
        amount * 1440
      else fallback
    | none => fallback

/-- Model of `formatRelativeLabel` (NewsDashboard.tsx lines 43-50).
`Math.round(x)` on a nonnegative quotient `m / d` is `(m + d / 2) / d` in
integer arithmetic (round half up). -/
def formatRelativeLabel (minutes : Nat) : String :=
  if minutes < 1 then "Just now"
  else if minutes < 60 then toString minutes ++ "m ago"
  else
    let hours := (minutes + 30) / 60
    if hours < 24 then toString hours ++ "h ago"
    else toString ((hours + 12) / 24) ++ "d ago"

/-- Word characters of the regex class `\w` (ASCII letters, digits, underscore). -/
def isWordChar (c : Char) : Bool := c.isAlphanum || c = '_'

/-- Whether the keyword, if it starts at the head of `rest`, ends at a `\b`
boundary (end of text or a non-word character). -/
def boundaryAfter (kw rest : List Char) : Bool :=
  match rest.drop kw.length with
  | [] => true
  | c :: _ => !(isWordChar c)

/-- Scan for a whole-word occurrence of `kw`; the Bool argument records whether
the previous character was a word character (for the leading `\b`). -/
def hasWordFrom (kw : List Char) : Bool → List Char → Bool
  | prevIsWord, [] => !prevIsWord && kw.isEmpty
  | prevIsWord, c :: rest =>
    (!prevIsWord && kw.isPrefixOf (c :: rest) && boundaryAfter kw (c :: rest))
      || hasWordFrom kw (isWordChar c) rest

/-- Whole-word containment, modelling `\b...\b` matching for keywords made of
word characters (all keywords the code uses are). -/
def containsWord (kw text : List Char) : Bool := hasWordFrom kw false text

/-- Title keywords of the regex `\b(how|why|guide|report|update)\b/i`. -/
def titleKeywords : List (List Char) :=
  ["how".data, "why".data, "guide".data, "report".data, "update".data]

/-- Summary keywords of the regex `\b(defi|layer 2|regulation|funding|token)\b/i`. -/
def summaryKeywords : List (List Char) :=
  ["defi".data, "layer 2".data, "regulation".data, "funding".data, "token".data]

/-- The additive part of `computeSeoScore` before clamping (NewsDashboard.tsx
lines 52-60): base 40 plus the four bonuses. -/
def seoRawScore (title summary : String) : Nat :=
  40 + (if 45 ≤ title.length ∧ title.length ≤ 70 then 20 else 0)
     + (if 140 ≤ summary.length ∧ summary.length ≤ 320 then 25 else 0)
     + (if titleKeywords.any (fun k => containsWord k (lowerL title)) then 5 else 0)
     + (if summaryKeywords.any (fun k => containsWord k (lowerL summary)) then 5 else 0)

/-- Model of `computeSeoScore` (NewsDashboard.tsx lines 52-61):
`Math.min(100, Math.max(30, Math.round(score)))`; the score is an integer so
the rounding is the identity. -/
def computeSeoScore (title summary : String) : Nat :=
  min 100 (max 30 (seoRawScore title summary))

/-- The SEO score as worded by the specification (base 40; +20 for title length
in [45,70]; +25 for summary length in [140,320]; +5 per keyword class matched
as a case-insensitive whole word; clamp to [30,100]; round — the identity on
integers).  Stated separately from `computeSeoScore` to compare the two. -/
def seoScoreSpec (title summary : String) : Nat :=
  max 30 (min 100
    (40 + (if 45 ≤ title.length ∧ title.length ≤ 70 then 20 else 0)
        + (if 140 ≤ summary.length ∧ summary.length ≤ 320 then 25 else 0)
        + (if titleKeywords.any (fun k => containsWord k (lowerL title)) then 5 else 0)
        + (if summaryKeywords.any (fun k => containsWord k (lowerL summary)) then 5 else 0)))

/-- Verification status enum of `NewsItem`. -/
inductive VerifStatus | Verified | NeedsReview | Risky
deriving DecidableEq

/-- Sentiment enum of `TrendItem`. -/
inductive Sentiment | Bullish | Neutral | Bearish
deriving DecidableEq

/-- News sort modes (`'RECENT' | 'HOT' | 'SEO'`). -/
inductive SortMode | RECENT | HOT | SEO
deriving DecidableEq

/-- Trend sort modes (`'RANK' | 'VOLUME' | 'MOVE'`). -/
inductive TrendSortMode | RANK | VOLUME | MOVE
deriving DecidableEq

/-- Raw news item (src/types.ts `NewsItem`).  `trendingScore` is `Option ℚ`:
`some q` is a numeric value, `none` stands for an absent or non-numeric
(`Number(...)` = NaN) score. -/
structure NewsItem where
  id : String
  title : String
  source : String
  time : String
  summary : String
  trendingScore : Option ℚ
  engagement : String
  verificationStatus : VerifStatus
  category : String
  url : Option String
deriving DecidableEq

/-- Decorated news item (`RankedNewsItem` in NewsDashboard.tsx lines 11-16). -/
structure RankedNewsItem extends NewsItem where
  freshnessMinutes : Nat
  hotScore : ℚ
  seoScore : Nat
  relativeLabel : String
deriving DecidableEq

/-- Decoration of one item at 0-based index `idx` in a batch of size `n`
(NewsDashboard.tsx lines 63-73).  `Number(item.trendingScore) || (items.length - idx)`
falls back when the score is absent, NaN, or zero (all falsy). -/
def decorateItem (n idx : Nat) (item : NewsItem) : RankedNewsItem :=
  let minutes := parseRelativeTime item.time
  { toNewsItem := item
    freshnessMinutes := minutes
    hotScore :=
      match item.trendingScore with
      | some q => if q = 0 then ((n : ℚ) - (idx : ℚ)) else q
      | none => ((n : ℚ) - (idx : ℚ))
    seoScore := computeSeoScore item.title item.summary
    relativeLabel := formatRelativeLabel minutes }

/-- Index-passing worker for `decorateNews`. -/
def decorateFrom (n : Nat) : Nat → List NewsItem → List RankedNewsItem
  | _, [] => []
  | idx, item :: rest => decorateItem n idx item :: decorateFrom n (idx + 1) rest

/-- Model of `decorateNews` (NewsDashboard.tsx lines 63-73). -/
def decorateNews (items : List NewsItem) : List RankedNewsItem :=
  decorateFrom items.length 0 items

/-- The filter predicate of `filteredNews` (NewsDashboard.tsx lines 135-141):
category match and case-insensitive substring search over title or summary. -/
def newsFilter (cat term : String) (item : RankedNewsItem) : Bool :=
  (cat == "All" || item.category == cat)
    && (listContains (lowerL term) (lowerL item.title)
        || listContains (lowerL term) (lowerL item.summary))

/-- JS `x || y` on numbers already known not to be NaN: `x` if nonzero, else `y`. -/
def jsOr (x y : ℚ) : ℚ := if x = 0 then y else x

/-- Lexicographic JS-style comparator built from two rational keys:
primary ascending in `f`, secondary ascending in `g`. -/
def lexCmp (f g : α → ℚ) (a b : α) : ℚ := jsOr (f a - f b) (g a - g b)

/-- The order relation a JS sort realizes for a numeric comparator `c`:
`a` may precede `b` iff `c a b ≤ 0`. -/
def cmpLe (c : α → α → ℚ) (a b : α) : Bool := decide (c a b ≤ 0)

/-- Insert an element into a list, before the first element it may precede. -/
def insertOrd (le : α → α → Bool) (a : α) : List α → List α
  | [] => [a]
  | b :: l => if le a b then a :: b :: l else b :: insertOrd le a l

/-- Stable insertion sort; with `le = cmpLe c` this models the stable
`Array.prototype.sort` on a consistent comparator `c`. -/
def sortByOrd (le : α → α → Bool) (l : List α) : List α :=
  l.foldr (insertOrd le) []

/-- The `RECENT` comparator `(a, b) => a.freshnessMinutes - b.freshnessMinutes`. -/
def recentCmp (a b : RankedNewsItem) : ℚ :=
  (a.freshnessMinutes : ℚ) - (b.freshnessMinutes : ℚ)

/-- The `HOT` comparator
`(a, b) => b.hotScore - a.hotScore || a.freshnessMinutes - b.freshnessMinutes`. -/
def hotCmp (a b : RankedNewsItem) : ℚ :=
  jsOr (b.hotScore - a.hotScore) ((a.freshnessMinutes : ℚ) - (b.freshnessMinutes : ℚ))

/-- The `SEO` comparator
`(a, b) => b.seoScore - a.seoScore || a.freshnessMinutes - b.freshnessMinutes`. -/
def seoCmp (a b : RankedNewsItem) : ℚ :=
  jsOr ((b.seoScore : ℚ) - (a.seoScore : ℚ))
    ((a.freshnessMinutes : ℚ) - (b.freshnessMinutes : ℚ))

/-- The comparator table `sorters` of NewsDashboard.tsx lines 143-147. -/
def newsCmp : SortMode → RankedNewsItem → RankedNewsItem → ℚ
  | SortMode.RECENT => recentCmp
  | SortMode.HOT => hotCmp
  | SortMode.SEO => seoCmp

/-- Model of `filteredNews` (NewsDashboard.tsx lines 133-150) on a decorated
collection: filter, then stable sort by the selected comparator. -/
def filteredNews (mode : SortMode) (cat term : String)
    (news : List RankedNewsItem) : List RankedNewsItem :=
  sortByOrd (cmpLe (newsCmp mode)) (news.filter (newsFilter cat term))

/-- The full news pipeline: decorate the raw batch, then filter and sort. -/
def newsPipeline (mode : SortMode) (cat term : String)
    (raw : List NewsItem) : List RankedNewsItem :=
  filteredNews mode cat term (decorateNews raw)

/-- Raw trend item (src/types.ts `TrendItem`). -/
structure TrendItem where
  rank : Int
  keyword : String
  mentions : String
  sentiment : Sentiment
  change : ℚ
deriving DecidableEq

/-- Digit-or-dot characters, the class `[\d.]` of the mentions regex. -/
def isDigitDot (c : Char) : Bool := c.isDigit || c = '.'

/-- First maximal run of `[\d.]+` characters (the `match(/[\d.]+/)` token). -/
def firstNumTok : List Char → Option (List Char)
  | [] => none
  | c :: rest =>
    if isDigitDot c then some ((c :: rest).takeWhile isDigitDot)
    else firstNumTok rest

/-- Numerator and decimal-exponent of the longest valid leading number of a
token made of digits and dots, as JS `parseFloat` reads it; `none` models NaN
(no parsable leading number, e.g. a lone dot).  The digits `i.f` denote the
rational `(i * 10 ^ |f| + f) / 10 ^ |f|`. -/
def parseFloatParts (cs : List Char) : Option (Nat × Nat) :=
  let intPart := cs.takeWhile Char.isDigit
  match cs.dropWhile Char.isDigit with
  | '.' :: rest =>
    let fracPart := rest.takeWhile Char.isDigit
    if intPart.isEmpty && fracPart.isEmpty then none
    else some (digitsToNat intPart * 10 ^ fracPart.length + digitsToNat fracPart,
               fracPart.length)
  | _ => if intPart.isEmpty then none else some (digitsToNat intPart, 0)

/-- JS `parseFloat` on a `[\d.]+` token, as a rational; `none` models NaN. -/
def parseFloatTok (cs : List Char) : Option ℚ :=
  (parseFloatParts cs).map (fun p => (p.1 : ℚ) / (10 : ℚ) ^ p.2)

/-- Whether the original text contains character `c` case-insensitively
(models `/k/i.test(m)` and `/m/i.test(m)`). -/
def containsCI (c : Char) (s : String) : Bool := s.data.any (fun d => d.toLower = c)

/-- Model of `parseMentions` (TrendDetection.tsx lines 78-85): strip commas,
take the first `[\d.]+` token, `parseFloat` it, and scale by a `k` or `m`
marker found anywhere in the original text (`k` first).  `none` models a NaN
result; no token at all yields 0 before any scaling. -/
def parseMentions (m : String) : Option ℚ :=
  let stripped := m.data.filter (fun c => c ≠ ',')
  match firstNumTok stripped with
  | none => some 0
  | some tok =>
    let value := parseFloatTok tok
    if containsCI 'k' m then value.map (fun v => v * 1000)
    else if containsCI 'm' m then value.map (fun v => v * 1000000)
    else value

/-- The trend comparator of TrendDetection.tsx lines 74-90, per sort mode.
For `VOLUME`, a NaN difference (either side failing to parse) is coerced to 0
by the sort, as the ES `SortCompare` does. -/
def trendCmp : TrendSortMode → TrendItem → TrendItem → ℚ
  | TrendSortMode.RANK => fun a b => (a.rank : ℚ) - (b.rank : ℚ)
  | TrendSortMode.VOLUME => fun a b =>
    match parseMentions b.mentions, parseMentions a.mentions with
    | some x, some y => x - y
    | _, _ => 0
  | TrendSortMode.MOVE => fun a b => |b.change| - |a.change|

/-- The sentiment pre-filter of `filteredTrends`; `none` is the `'ALL'` case. -/
def trendBase : Option Sentiment → List TrendItem → List TrendItem
  | none, ts => ts
  | some s, ts => ts.filter (fun t => t.sentiment == s)

/-- Model of `filteredTrends` (TrendDetection.tsx lines 69-92). -/
def filteredTrends (sf : Option Sentiment) (mode : TrendSortMode)
    (trends : List TrendItem) : List TrendItem :=
  sortByOrd (cmpLe (trendCmp mode)) (trendBase sf trends)

/-- The mock trend batch of TrendDetection.tsx lines 54-59. -/
def fallbackTrends : List TrendItem :=
  [{ rank := 1, keyword := "#Bitcoin", mentions := "45.2K", sentiment := Sentiment.Bullish, change := 23 },
   { rank := 2, keyword := "#AI", mentions := "38.9K", sentiment := Sentiment.Bullish, change := 45 },
   { rank := 3, keyword := "$SOL", mentions := "32.1K", sentiment := Sentiment.Bullish, change := 12 },
   { rank := 4, keyword := "LayerZero", mentions := "28.4K", sentiment := Sentiment.Neutral, change := -8 }]

/-- Hot score of the decorated item at an index, when the index is in range. -/
def hotScoreAt (l : List NewsItem) (i : Nat) : Option ℚ :=
  ((decorateNews l)[i]?).map (fun r => r.hotScore)

/-- Erase the engagement field of a raw item. -/
def stripEngagement (it : NewsItem) : NewsItem := { it with engagement := "" }

/-- Erase the engagement field of a decorated item. -/
def stripEngagementR (r : RankedNewsItem) : RankedNewsItem := { r with engagement := "" }

/-- News items used to witness engagement-independence: identical except for
the engagement string. -/
def witnessItemA : NewsItem :=
  { id := "a", title := "Title one", source := "s", time := "5 min ago",
    summary := "Summary one", trendingScore := some 3, engagement := "45.2K",
    verificationStatus := VerifStatus.Verified, category := "DeFi", url := none }

/-- Same as `witnessItemA` up to the engagement string. -/
def witnessItemB : NewsItem := { witnessItemA with engagement := "1M" }

/-- A two-item batch with no usable trending score, for the hot-score fallback. -/
def unrankedBatch : List NewsItem :=
  [{ witnessItemA with trendingScore := none },
   { witnessItemA with id := "b", trendingScore := some 0 }]

/-- Trend collection whose middle mentions string parses to NaN: the VOLUME
sort then leaves a magnitude-1 item ahead of a magnitude-9 item. -/
def nanTrends : List TrendItem :=
  [{ rank := 1, keyword := "a", mentions := "1", sentiment := Sentiment.Neutral, change := 0 },
   { rank := 2, keyword := "b", mentions := ".", sentiment := Sentiment.Neutral, change := 0 },
   { rank := 3, keyword := "c", mentions := "9", sentiment := Sentiment.Neutral, change := 0 }]

theorem insertOrd_cons {α : Type _} (le : α → α → Bool) (a b : α) (l : List α) :
    insertOrd le a (b :: l) =
      if le a b then a :: b :: l else b :: insertOrd le a l := rfl

theorem sortByOrd_cons {α : Type _} (le : α → α → Bool) (a : α) (l : List α) :
    sortByOrd le (a :: l) = insertOrd le a (sortByOrd le l) := rfl

/-- The mock trend batch in reverse arrival order. -/
def fallbackTrendsRev : List TrendItem :=
  [{ rank := 4, keyword := "LayerZero", mentions := "28.4K", sentiment := Sentiment.Neutral, change := -8 },
   { rank := 3, keyword := "$SOL", mentions := "32.1K", sentiment := Sentiment.Bullish, change := 12 },
   { rank := 2, keyword := "#AI", mentions := "38.9K", sentiment := Sentiment.Bullish, change := 45 },
   { rank := 1, keyword := "#Bitcoin", mentions := "45.2K", sentiment := Sentiment.Bullish, change := 23 }]

/-- A 45-character title containing "guide" as a whole word. -/
def title45 : String := "guide " ++ String.mk (List.replicate 39 'a')

/-- A 140-character summary containing "token" as a whole word. -/
def summary140 : String := "token " ++ String.mk (List.replicate 134 'b')

theorem mem_insertOrd {α : Type _} {le : α → α → Bool} {a y : α} :
    ∀ {l : List α}, y ∈ insertOrd le a l ↔ y = a ∨ y ∈ l := by
  intro l
  induction l with
  | nil => simp [insertOrd]
  | cons b t ih =>
    rw [insertOrd_cons]
    by_cases h : le a b = true
    · rw [if_pos h]
      simp [List.mem_cons]
    · rw [if_neg h]
      simp only [List.mem_cons, ih]
      tauto

theorem pairwise_insertOrd {α : Type _} {le : α → α → Bool}
    (htot : ∀ a b, le a b = true ∨ le b a = true)
    (htrans : ∀ a b c, le a b = true → le b c = true → le a c = true)
    (a : α) : ∀ (l : List α), l.Pairwise (fun x y => le x y = true) →
    (insertOrd le a l).Pairwise (fun x y => le x y = true) := by
  intro l
  induction l with
  | nil => intro _; simp [insertOrd]
  | cons b t ih =>
    intro h
    rw [List.pairwise_cons] at h
    obtain ⟨hb, ht⟩ := h
    rw [insertOrd_cons]
    by_cases hab : le a b = true
    · rw [if_pos hab]
      refine List.Pairwise.cons ?_ (List.Pairwise.cons hb ht)
      intro y hy
      rcases List.mem_cons.mp hy with rfl | hyt
      · exact hab
      · exact htrans a b y hab (hb y hyt)
    · rw [if_neg hab]
      refine List.Pairwise.cons ?_ (ih ht)
      intro y hy
      rcases mem_insertOrd.mp hy with heq | hyt
      · rw [heq]
        exact (htot a b).resolve_left hab
      · exact hb y hyt

theorem pairwise_sortByOrd {α : Type _} {le : α → α → Bool}
    (htot : ∀ a b, le a b = true ∨ le b a = true)
    (htrans : ∀ a b c, le a b = true → le b c = true → le a c = true) :
    ∀ (l : List α), (sortByOrd le l).Pairwise (fun x y => le x y = true) := by
  intro l
  induction l with
  | nil => simp [sortByOrd]
  | cons a t ih => exact pairwise_insertOrd htot htrans a _ ih

theorem mem_sortByOrd {α : Type _} {le : α → α → Bool} {y : α} :
    ∀ {l : List α}, y ∈ sortByOrd le l ↔ y ∈ l := by
  intro l
  induction l with
  | nil => simp [sortByOrd]
  | cons a t ih =>
    show y ∈ insertOrd le a (sortByOrd le t) ↔ _
    rw [mem_insertOrd, ih]
    simp [List.mem_cons, eq_comm]

theorem insertOrd_congr {α : Type _} {le le2 : α → α → Bool} (a : α) :
    ∀ (l : List α), (∀ b ∈ l, le a b = le2 a b) →
    insertOrd le a l = insertOrd le2 a l := by
  intro l
  induction l with
  | nil => intro _; rfl
  | cons b t ih =>
    intro h
    have hb := h b (List.mem_cons_self b t)
    rw [insertOrd_cons, insertOrd_cons, hb]
    by_cases h2 : le2 a b = true
    · rw [if_pos h2, if_pos h2]
    · rw [if_neg h2, if_neg h2, ih (fun c hc => h c (List.mem_cons_of_mem b hc))]

theorem sortByOrd_congr {α : Type _} {le le2 : α → α → Bool} :
    ∀ {l : List α}, (∀ x ∈ l, ∀ y ∈ l, le x y = le2 x y) →
    sortByOrd le l = sortByOrd le2 l := by
  intro l
  induction l with
  | nil => intro _; rfl
  | cons a t ih =>
    intro h
    show insertOrd le a (sortByOrd le t) = insertOrd le2 a (sortByOrd le2 t)
    rw [ih (fun x hx y hy =>
      h x (List.mem_cons_of_mem a hx) y (List.mem_cons_of_mem a hy))]
    exact insertOrd_congr a _ (fun b hb =>
      h a (List.mem_cons_self a t) b
        (List.mem_cons_of_mem a (mem_sortByOrd.mp hb)))

theorem insertOrd_map {α β : Type _} (f : α → β) {le : β → β → Bool}
    {le2 : α → α → Bool} (hc : ∀ x y, le (f x) (f y) = le2 x y) (a : α) :
    ∀ (l : List α), insertOrd le (f a) (l.map f) = (insertOrd le2 a l).map f := by
  intro l
  induction l with
  | nil => rfl
  | cons b t ih =>
    simp only [List.map_cons]
    rw [insertOrd_cons, insertOrd_cons, hc a b]
    by_cases h2 : le2 a b = true
    · rw [if_pos h2, if_pos h2]
      simp
    · rw [if_neg h2, if_neg h2]
      simp only [List.map_cons, ih]

theorem sortByOrd_map {α β : Type _} (f : α → β) {le : β → β → Bool}
    {le2 : α → α → Bool} (hc : ∀ x y, le (f x) (f y) = le2 x y) :
    ∀ (l : List α), sortByOrd le (l.map f) = (sortByOrd le2 l).map f := by
  intro l
  induction l with
  | nil => rfl
  | cons a t ih =>
    show insertOrd le (f a) (sortByOrd le (t.map f)) = _
    rw [ih]
    exact insertOrd_map f hc a _

theorem filter_map_comm {α β : Type _} (f : α → β) (p : β → Bool) (q : α → Bool)
    (hp : ∀ x, p (f x) = q x) :
    ∀ (l : List α), (l.map f).filter p = (l.filter q).map f := by
  intro l
  induction l with
  | nil => rfl
  | cons a t ih =>
    simp only [List.map_cons, List.filter_cons, hp a]
    by_cases h : q a = true
    · simp [h, ih]
    · simp [h, ih]

theorem jsOr_zero (x : ℚ) : jsOr x 0 = x := by
  unfold jsOr
  by_cases h : x = 0 <;> simp [h]

theorem cmpLe_lexCmp_iff {α : Type _} (f g : α → ℚ) (a b : α) :
    cmpLe (lexCmp f g) a b = true ↔ f a < f b ∨ (f a = f b ∧ g a ≤ g b) := by
  unfold cmpLe lexCmp jsOr
  by_cases h : f a - f b = 0
  · rw [if_pos h]
    simp only [decide_eq_true_eq]
    constructor
    · intro hg
      right
      exact ⟨by linarith, by linarith⟩
    · rintro (hlt | ⟨heq, hle⟩)
      · linarith
      · linarith
  · rw [if_neg h]
    simp only [decide_eq_true_eq]
    constructor
    · intro hle
      left
      have : f a - f b < 0 := lt_of_le_of_ne hle h
      linarith
    · rintro (hlt | ⟨heq, _⟩)
      · linarith
      · exact absurd (by linarith : f a - f b = 0) h

theorem lexCmp_total {α : Type _} (f g : α → ℚ) (a b : α) :
    cmpLe (lexCmp f g) a b = true ∨ cmpLe (lexCmp f g) b a = true := by
  rw [cmpLe_lexCmp_iff, cmpLe_lexCmp_iff]
  rcases lt_trichotomy (f a) (f b) with h | h | h
  · exact Or.inl (Or.inl h)
  · rcases le_total (g a) (g b) with hg | hg
    · exact Or.inl (Or.inr ⟨h, hg⟩)
    · exact Or.inr (Or.inr ⟨h.symm, hg⟩)
  · exact Or.inr (Or.inl h)

theorem lexCmp_trans {α : Type _} (f g : α → ℚ) (a b c : α)
    (h1 : cmpLe (lexCmp f g) a b = true) (h2 : cmpLe (lexCmp f g) b c = true) :
    cmpLe (lexCmp f g) a c = true := by
  rw [cmpLe_lexCmp_iff] at h1 h2 ⊢
  rcases h1 with h1 | ⟨e1, g1⟩ <;> rcases h2 with h2 | ⟨e2, g2⟩
  · exact Or.inl (lt_trans h1 h2)
  · exact Or.inl (e2 ▸ h1)
  · exact Or.inl (e1 ▸ h2)
  · exact Or.inr ⟨e1.trans e2, le_trans g1 g2⟩

theorem pairwise_sortByOrd_lex {α : Type _} (f g : α → ℚ) (l : List α) :
    (sortByOrd (cmpLe (lexCmp f g)) l).Pairwise
      (fun x y => cmpLe (lexCmp f g) x y = true) :=
  pairwise_sortByOrd (lexCmp_total f g) (lexCmp_trans f g) l

theorem recentCmp_eq_lex :
    recentCmp = lexCmp (fun r : RankedNewsItem => (r.freshnessMinutes : ℚ)) (fun _ => 0) := by
  funext a b
  simp only [lexCmp, recentCmp]
  norm_num [jsOr_zero]

theorem hotCmp_eq_lex :
    hotCmp = lexCmp (fun r : RankedNewsItem => -r.hotScore)
      (fun r : RankedNewsItem => (r.freshnessMinutes : ℚ)) := by
  funext a b
  simp only [lexCmp, hotCmp]
  rw [neg_sub_neg]

theorem seoCmp_eq_lex :
    seoCmp = lexCmp (fun r : RankedNewsItem => -(r.seoScore : ℚ))
      (fun r : RankedNewsItem => (r.freshnessMinutes : ℚ)) := by
  funext a b
  simp only [lexCmp, seoCmp]
  rw [neg_sub_neg]

theorem rankCmp_eq_lex :
    trendCmp TrendSortMode.RANK = lexCmp (fun t : TrendItem => (t.rank : ℚ)) (fun _ => 0) := by
  funext a b
  simp only [trendCmp, lexCmp]
  norm_num [jsOr_zero]

theorem moveCmp_eq_lex :
    trendCmp TrendSortMode.MOVE = lexCmp (fun t : TrendItem => -|t.change|) (fun _ => 0) := by
  funext a b
  simp only [trendCmp, lexCmp]
  norm_num [jsOr_zero]
  ring

theorem decorateFrom_length (n : Nat) :
    ∀ (k : Nat) (l : List NewsItem), (decorateFrom n k l).length = l.length := by
  intro k l
  induction l generalizing k with
  | nil => rfl
  | cons a t ih => simp [decorateFrom, ih]

theorem decorateNews_length (l : List NewsItem) :
    (decorateNews l).length = l.length := decorateFrom_length _ 0 l

theorem decorateFrom_getElem (n : Nat) :
    ∀ (l : List NewsItem) (k i : Nat),
    (decorateFrom n k l)[i]? = (l[i]?).map (fun item => decorateItem n (k + i) item) := by
  intro l
  induction l with
  | nil => intro k i; simp [decorateFrom]
  | cons a t ih =>
    intro k i
    cases i with
    | zero => simp [decorateFrom]
    | succ j =>
      have harith : k + 1 + j = k + (j + 1) := by omega
      simp [decorateFrom, ih (k + 1) j, harith]

theorem decorateItem_strip (n i : Nat) (item : NewsItem) :
    decorateItem n i (stripEngagement item) = stripEngagementR (decorateItem n i item) := rfl

theorem decorateFrom_strip (n : Nat) :
    ∀ (k : Nat) (l : List NewsItem),
    decorateFrom n k (l.map stripEngagement) = (decorateFrom n k l).map stripEngagementR := by
  intro k l
  induction l generalizing k with
  | nil => rfl
  | cons a t ih =>
    simp only [List.map_cons, decorateFrom, ih (k + 1)]
    rw [decorateItem_strip]

theorem decorateNews_strip (l : List NewsItem) :
    decorateNews (l.map stripEngagement) = (decorateNews l).map stripEngagementR := by
  unfold decorateNews
  rw [List.length_map]
  exact decorateFrom_strip _ 0 l

theorem newsFilter_strip (cat term : String) (r : RankedNewsItem) :
    newsFilter cat term (stripEngagementR r) = newsFilter cat term r := rfl

theorem newsCmp_strip (mode : SortMode) (a b : RankedNewsItem) :
    newsCmp mode (stripEngagementR a) (stripEngagementR b) = newsCmp mode a b := by
  cases mode <;> rfl

theorem filteredNews_strip (mode : SortMode) (cat term : String)
    (news : List RankedNewsItem) :
    filteredNews mode cat term (news.map stripEngagementR)
      = (filteredNews mode cat term news).map stripEngagementR := by
  unfold filteredNews
  rw [filter_map_comm stripEngagementR (newsFilter cat term) (newsFilter cat term)
    (newsFilter_strip cat term)]
  exact sortByOrd_map stripEngagementR
    (fun x y => by rw [cmpLe, cmpLe, newsCmp_strip]) _

theorem newsPipeline_strip (mode : SortMode) (cat term : String) (l : List NewsItem) :
    newsPipeline mode cat term (l.map stripEngagement)
      = (newsPipeline mode cat term l).map stripEngagementR := by
  unfold newsPipeline
  rw [decorateNews_strip]
  exact filteredNews_strip mode cat term _

theorem seoRawScore_bounds (t s : String) :
    40 ≤ seoRawScore t s ∧ seoRawScore t s ≤ 95 := by
  unfold seoRawScore
  split_ifs <;> omega

theorem hotScoreAt_eq (l : List NewsItem) (i : Nat) :
    hotScoreAt l i = (l[i]?).map (fun item =>
      match item.trendingScore with
      | some q => if q = 0 then (l.length : ℚ) - (i : ℚ) else q
      | none => (l.length : ℚ) - (i : ℚ)) := by
  cases h : l[i]? with
  | none => simp [hotScoreAt, decorateNews, decorateFrom_getElem, h]
  | some item =>
    simp only [hotScoreAt, decorateNews, decorateFrom_getElem, h, Option.map_some',
      Nat.zero_add]
    cases hts : item.trendingScore <;> simp [decorateItem, hts]

theorem mem_trendBase {sf : Option Sentiment} {ts : List TrendItem} {t : TrendItem}
    (h : t ∈ trendBase sf ts) : t ∈ ts := by
  cases sf with
  | none => exact h
  | some s => exact List.mem_of_mem_filter h

/-- C6: `normalizeAge` returns the documented constants on the pinned inputs:
empty and "yesterday" give 1440, "5 min ago" gives 5, "3 hours ago" gives 180,
"2 days ago" gives 2880, and "garbage" (no numeric pattern, no "yesterday")
gives the fallback 720. -/
theorem normalizeAge_pinned_values :
    parseRelativeTime "" = 1440 ∧ parseRelativeTime "yesterday" = 1440 ∧
    parseRelativeTime "5 min ago" = 5 ∧ parseRelativeTime "3 hours ago" = 180 ∧
    parseRelativeTime "2 days ago" = 2880 ∧ parseRelativeTime "garbage" = 720 := by
  decide

/-- C1 counterexample: the input "7m" matches the pattern `<integer><unit>`
with the bare unit "m", yet the result is the fallback 720, not the amount 7:
the lowercased string contains none of the substrings "min", "hour", "hr",
"h", "day", "d", so every classification branch is skipped. -/
theorem parseRelativeTime_bare_m : parseRelativeTime "7m" = 720 := by decide

/-- C1 (amended): when the input matches `<integer><unit>`, the unit class is
decided by substring containment over the whole lowercased input, in priority
order "min", then "hour"/"hr"/"h", then "day"/"d"; a match whose surrounding
string contains none of those substrings (such as a bare unit "m") falls
through to the yesterday/720 fallback instead of the minute class. -/
theorem parseRelativeTime_unit_classes (s : String) (a : Nat)
    (hne : s.isEmpty = false) (hm : findTimeMatch (lowerL s) = some a) :
    parseRelativeTime s =
      (if listContains "min".data (lowerL s) then a
       else if listContains "hour".data (lowerL s) || listContains "hr".data (lowerL s)
           || listContains "h".data (lowerL s) then a * 60
       else if listContains "day".data (lowerL s) || listContains "d".data (lowerL s) then
         a * 1440
       else if listContains "yesterday".data (lowerL s) then 1440
       else 720) := by
  simp only [parseRelativeTime, hne, Bool.false_eq_true, if_false, hm]

/-- C1 witness: the amended classification applied at "5 min ago". -/
theorem parseRelativeTime_unit_classes_witness : parseRelativeTime "5 min ago" = 5 := by
  rw [parseRelativeTime_unit_classes "5 min ago" 5 (by decide) (by decide)]
  decide

/-- C10: the SEO score actually lies in [40, 95]: the additive bonuses reach at
most 55 over the base 40, so neither the upper clamp at 100 nor the lower
clamp at 30 is ever active and the score equals the raw sum. -/
theorem computeSeoScore_range (t s : String) :
    computeSeoScore t s = seoRawScore t s ∧
    40 ≤ computeSeoScore t s ∧ computeSeoScore t s ≤ 95 := by
  have h := seoRawScore_bounds t s
  unfold computeSeoScore
  omega

set_option maxRecDepth 100000 in
/-- C4: the SEO score is base 40, plus 20 for a title length in [45,70] (both
ends included), plus 25 for a summary length in [140,320], plus 5 for a title
keyword and 5 for a summary keyword matched as case-insensitive whole words,
clamped to [30,100] (rounding is the identity on integers); a 45-character
title containing "guide" with a 140-character summary containing "token"
scores exactly 95. -/
theorem computeSeoScore_spec_agreement :
    (∀ t s : String, computeSeoScore t s = seoScoreSpec t s) ∧
    computeSeoScore title45 summary140 = 95 := by
  constructor
  · intro t s
    unfold computeSeoScore seoRawScore seoScoreSpec
    split_ifs <;> rfl
  · decide

/-- C2: for every raw batch and view parameters, the pipeline output under
RECENT has non-decreasing freshnessMinutes; under HOT it has non-increasing
hotScore with ties ordered by non-decreasing freshnessMinutes; under SEO it
has non-increasing seoScore with ties ordered by non-decreasing
freshnessMinutes. -/
theorem newsPipeline_sort_laws (raw : List NewsItem) (cat term : String) :
    ((newsPipeline SortMode.RECENT cat term raw).Pairwise
      (fun a b => a.freshnessMinutes ≤ b.freshnessMinutes)) ∧
    ((newsPipeline SortMode.HOT cat term raw).Pairwise
      (fun a b => b.hotScore ≤ a.hotScore ∧
        (a.hotScore = b.hotScore → a.freshnessMinutes ≤ b.freshnessMinutes))) ∧
    ((newsPipeline SortMode.SEO cat term raw).Pairwise
      (fun a b => b.seoScore ≤ a.seoScore ∧
        (a.seoScore = b.seoScore → a.freshnessMinutes ≤ b.freshnessMinutes))) := by
  refine ⟨?_, ?_, ?_⟩
  · show (sortByOrd (cmpLe recentCmp) _).Pairwise _
    rw [recentCmp_eq_lex]
    refine List.Pairwise.imp ?_ (pairwise_sortByOrd_lex _ _ _)
    intro a b h
    rcases (cmpLe_lexCmp_iff _ _ a b).mp h with h1 | ⟨h1, _⟩
    · exact_mod_cast h1.le
    · exact_mod_cast h1.le
  · show (sortByOrd (cmpLe hotCmp) _).Pairwise _
    rw [hotCmp_eq_lex]
    refine List.Pairwise.imp ?_ (pairwise_sortByOrd_lex _ _ _)
    intro a b h
    rcases (cmpLe_lexCmp_iff _ _ a b).mp h with h1 | ⟨h1, h2⟩
    · have hlt : b.hotScore < a.hotScore := by
        have := neg_lt_neg_iff.mp h1
        linarith
      exact ⟨hlt.le, fun heq => absurd heq (by intro he; rw [he] at hlt; exact lt_irrefl _ hlt)⟩
    · have heq : a.hotScore = b.hotScore := neg_inj.mp h1
      exact ⟨le_of_eq heq.symm, fun _ => by exact_mod_cast h2⟩
  · show (sortByOrd (cmpLe seoCmp) _).Pairwise _
    rw [seoCmp_eq_lex]
    refine List.Pairwise.imp ?_ (pairwise_sortByOrd_lex _ _ _)
    intro a b h
    rcases (cmpLe_lexCmp_iff _ _ a b).mp h with h1 | ⟨h1, h2⟩
    · have hlt : (b.seoScore : ℚ) < (a.seoScore : ℚ) := by
        have := neg_lt_neg_iff.mp h1
        linarith
      have hn : b.seoScore < a.seoScore := by exact_mod_cast hlt
      exact ⟨hn.le, fun heq => absurd heq (by omega)⟩
    · have heq : (a.seoScore : ℚ) = (b.seoScore : ℚ) := neg_inj.mp h1
      have hn : a.seoScore = b.seoScore := by exact_mod_cast heq
      exact ⟨le_of_eq hn.symm, fun _ => by exact_mod_cast h2⟩

/-- C2 witness: the three sort laws at a concrete batch and view parameters. -/
theorem newsPipeline_sort_laws_witness :
    (newsPipeline SortMode.HOT "All" "" [witnessItemA]).Pairwise
      (fun a b => b.hotScore ≤ a.hotScore ∧
        (a.hotScore = b.hotScore → a.freshnessMinutes ≤ b.freshnessMinutes)) :=
  (newsPipeline_sort_laws [witnessItemA] "All" "").2.1

theorem hotScoreAt_default (l : List NewsItem) (k : Nat) (hk : k < l.length)
    (hP : ((l[k]?).all (fun it => it.trendingScore.getD 0 == 0)) = true) :
    hotScoreAt l k = some ((l.length : ℚ) - (k : ℚ)) := by
  obtain ⟨it, hg⟩ : ∃ it, l[k]? = some it := by
    rw [List.getElem?_eq_getElem hk]
    exact ⟨_, rfl⟩
  rw [hotScoreAt_eq, hg, Option.map_some']
  rw [hg] at hP
  simp only [Option.all_some] at hP
  cases hts : it.trendingScore with
  | none => simp
  | some q =>
    rw [hts] at hP
    simp only [Option.getD_some, beq_iff_eq] at hP
    simp [hP]

/-- C3: the hot score of the item at index i in a batch of size n is its own
trending score when that score is present and nonzero, and the positional
default n - i otherwise; consequently, among items with no usable trending
score, an earlier item gets a strictly larger default heat than a later one. -/
theorem hotScore_fallback_rule (l : List NewsItem) :
    (∀ i : Nat, hotScoreAt l i = (l[i]?).map (fun item =>
      match item.trendingScore with
      | some q => if q = 0 then (l.length : ℚ) - (i : ℚ) else q
      | none => (l.length : ℚ) - (i : ℚ))) ∧
    (∀ i j : Nat, i < j → j < l.length →
      ((l[i]?).all (fun it => it.trendingScore.getD 0 == 0)) = true →
      ((l[j]?).all (fun it => it.trendingScore.getD 0 == 0)) = true →
      (hotScoreAt l j).getD 0 < (hotScoreAt l i).getD 0) := by
  refine ⟨hotScoreAt_eq l, ?_⟩
  intro i j hij hjl hPi hPj
  have hil : i < l.length := lt_trans hij hjl
  rw [hotScoreAt_default l i hil hPi, hotScoreAt_default l j hjl hPj]
  simp only [Option.getD_some]
  have hcast : (i : ℚ) < (j : ℚ) := by exact_mod_cast hij
  linarith

/-- C3 witness: in a two-item batch with no usable trending score, the first
item gets default heat 2 and the second gets 1. -/
theorem hotScore_fallback_rule_witness :
    (hotScoreAt unrankedBatch 1).getD 0 < (hotScoreAt unrankedBatch 0).getD 0 :=
  (hotScore_fallback_rule unrankedBatch).2 0 1 (by decide) (by decide)
    (by decide) (by decide)

/-- C9: two batches that agree everywhere except in the engagement strings
produce pipeline outputs that agree on every field except engagement — same
derived fields, same membership, same order: engagement never influences
annotation, filtering, or ranking. -/
theorem newsPipeline_engagement_free (mode : SortMode) (cat term : String)
    (l1 l2 : List NewsItem)
    (h : l1.map stripEngagement = l2.map stripEngagement) :
    (newsPipeline mode cat term l1).map stripEngagementR
      = (newsPipeline mode cat term l2).map stripEngagementR := by
  rw [← newsPipeline_strip, ← newsPipeline_strip, h]

/-- C9 witness: two singleton batches differing only in engagement ("45.2K"
versus "1M") give pipeline outputs that agree up to engagement. -/
theorem newsPipeline_engagement_free_witness :
    (newsPipeline SortMode.HOT "All" "" [witnessItemA]).map stripEngagementR
      = (newsPipeline SortMode.HOT "All" "" [witnessItemB]).map stripEngagementR :=
  newsPipeline_engagement_free SortMode.HOT "All" "" [witnessItemA] [witnessItemB] rfl

/-- C5 counterexample: the input "..5" has a numeric token ("5", or the
decimal ".5"), yet the result is NaN (no numeric value), not a number: the
code's token regex grabs "..5" whole and `parseFloat` fails on it. -/
theorem parseMentions_nan_counterexample : parseMentions "..5" = none := by decide

/-- C5 (amended): the four pinned examples hold; when the comma-stripped text
has no digit-or-dot character the result is 0; but when the first
digit-and-dot token has no parsable leading number the result is NaN (no
numeric value) rather than 0; otherwise the parsed value is scaled by 1000 on
a case-insensitive "k" (which takes precedence), else by 1000000 on a
case-insensitive "m", else returned unscaled. -/
theorem parseMentions_behavior :
    parseMentions "45.2K" = some 45200 ∧
    parseMentions "1.2M" = some 1200000 ∧
    parseMentions "no data" = some 0 ∧
    parseMentions "12,345" = some 12345 ∧
    (∀ m : String, firstNumTok (m.data.filter (fun c => c ≠ ',')) = none →
      parseMentions m = some 0) ∧
    (∀ (m : String) (tok : List Char),
      firstNumTok (m.data.filter (fun c => c ≠ ',')) = some tok →
      parseFloatTok tok = none → parseMentions m = none) ∧
    (∀ (m : String) (tok : List Char) (v : ℚ),
      firstNumTok (m.data.filter (fun c => c ≠ ',')) = some tok →
      parseFloatTok tok = some v → containsCI 'k' m = true →
      parseMentions m = some (v * 1000)) ∧
    (∀ (m : String) (tok : List Char) (v : ℚ),
      firstNumTok (m.data.filter (fun c => c ≠ ',')) = some tok →
      parseFloatTok tok = some v → containsCI 'k' m = false → containsCI 'm' m = true →
      parseMentions m = some (v * 1000000)) ∧
    (∀ (m : String) (tok : List Char) (v : ℚ),
      firstNumTok (m.data.filter (fun c => c ≠ ',')) = some tok →
      parseFloatTok tok = some v → containsCI 'k' m = false → containsCI 'm' m = false →
      parseMentions m = some v) := by
  refine ⟨?_, ?_, by decide, ?_, ?_, ?_, ?_, ?_, ?_⟩
  · have h1 : firstNumTok ("45.2K".data.filter (fun c => c ≠ ',')) = some "45.2".data := by decide
    have h2 : containsCI 'k' "45.2K" = true := by decide
    have h3 : parseFloatParts "45.2".data = some (452, 1) := by decide
    simp only [parseMentions, h1, h2, parseFloatTok, h3, Option.map_some', if_pos]
    norm_num
  · have h1 : firstNumTok ("1.2M".data.filter (fun c => c ≠ ',')) = some "1.2".data := by decide
    have h2 : containsCI 'k' "1.2M" = false := by decide
    have h2m : containsCI 'm' "1.2M" = true := by decide
    have h3 : parseFloatParts "1.2".data = some (12, 1) := by decide
    simp only [parseMentions, h1, h2, h2m, parseFloatTok, h3, Option.map_some',
      Bool.false_eq_true, if_false, if_pos]
    norm_num
  · have h1 : firstNumTok ("12,345".data.filter (fun c => c ≠ ',')) = some "12345".data := by
      decide
    have h2 : containsCI 'k' "12,345" = false := by decide
    have h2m : containsCI 'm' "12,345" = false := by decide
    have h3 : parseFloatParts "12345".data = some (12345, 0) := by decide
    simp only [parseMentions, h1, h2, h2m, parseFloatTok, h3, Option.map_some',
      Bool.false_eq_true, if_false]
    norm_num
  · intro m h
    simp only [parseMentions, h]
  · intro m tok h1 h2
    simp only [parseMentions, h1, h2, Option.map_none']
    split_ifs <;> rfl
  · intro m tok v h1 h2 hk
    simp only [parseMentions, h1, h2, hk, eq_self_iff_true, if_true, Option.map_some']
  · intro m tok v h1 h2 hk hm
    simp only [parseMentions, h1, h2, hk, hm, Bool.false_eq_true, if_false,
      eq_self_iff_true, if_true, Option.map_some']
  · intro m tok v h1 h2 hk hm
    simp only [parseMentions, h1, h2, hk, hm, Bool.false_eq_true, if_false]

/-- C5 witness: the NaN clause applied at "x.k", whose only digit-or-dot token
is a lone dot. -/
theorem parseMentions_behavior_witness : parseMentions "x.k" = none :=
  parseMentions_behavior.2.2.2.2.2.1 "x.k" ['.'] (by decide) (by decide)

/-- C8 counterexample: the input "." is malformed (no digits at all), yet
`parseMentions` returns NaN — modelled as an absent numeric value — rather
than the documented default 0. -/
theorem parseMentions_dot_counterexample : parseMentions "." = none := by decide

/-- C8 (amended): the normalizers are total functions: ages always resolve to
a number, with defaults 1440 for empty input and 1440/720 when no pattern
matches; the SEO score always lies within the documented [30,100]; magnitudes
default to 0 when the text has no digit-or-dot token, and produce a numeric
value whenever the extracted token has a parsable leading number — but a
token with no parsable number (e.g. a lone dot) yields NaN, not 0. -/
theorem parsers_total_with_defaults :
    (∀ s : String, s.isEmpty = true → parseRelativeTime s = 1440) ∧
    (∀ s : String, s.isEmpty = false → findTimeMatch (lowerL s) = none →
      parseRelativeTime s =
        (if listContains "yesterday".data (lowerL s) then 1440 else 720)) ∧
    (∀ t s : String, 30 ≤ computeSeoScore t s ∧ computeSeoScore t s ≤ 100) ∧
    (∀ m : String, firstNumTok (m.data.filter (fun c => c ≠ ',')) = none →
      parseMentions m = some 0) ∧
    (∀ (m : String) (tok : List Char) (v : ℚ),
      firstNumTok (m.data.filter (fun c => c ≠ ',')) = some tok →
      parseFloatTok tok = some v → (parseMentions m).isSome = true) := by
  refine ⟨?_, ?_, ?_, ?_, ?_⟩
  · intro s h
    simp [parseRelativeTime, h]
  · intro s h1 h2
    simp only [parseRelativeTime, h1, Bool.false_eq_true, if_false, h2]
  · intro t s
    have h := seoRawScore_bounds t s
    unfold computeSeoScore
    omega
  · intro m h
    simp only [parseMentions, h]
  · intro m tok v h1 h2
    simp only [parseMentions, h1, h2]
    split_ifs <;> simp

/-- C8 witness: the empty-input default applied at the empty string. -/
theorem parsers_total_with_defaults_witness : parseRelativeTime "" = 1440 :=
  parsers_total_with_defaults.1 "" rfl

/-- C7 counterexample: in a collection whose middle mentions string parses to
NaN, the VOLUME sort leaves an item of parsed magnitude 1 ahead of an item of
parsed magnitude 9 — not a descending order of parsed magnitudes.  The NaN
comparison results are coerced to ties, which breaks transitivity of the
comparator, so the two numeric items are never compared with each other. -/
theorem filteredTrends_volume_nan :
    filteredTrends none TrendSortMode.VOLUME nanTrends = nanTrends ∧
    parseMentions "1" = some 1 ∧ parseMentions "9" = some 9 ∧
    parseMentions "." = none := by
  refine ⟨by decide, ?_, ?_, by decide⟩
  · have h1 : firstNumTok ("1".data.filter (fun c => c ≠ ',')) = some "1".data := by decide
    have hk : containsCI 'k' "1" = false := by decide
    have hm : containsCI 'm' "1" = false := by decide
    have h3 : parseFloatParts "1".data = some (1, 0) := by decide
    simp only [parseMentions, h1, hk, hm, parseFloatTok, h3, Option.map_some',
      Bool.false_eq_true, if_false]
    norm_num
  · have h1 : firstNumTok ("9".data.filter (fun c => c ≠ ',')) = some "9".data := by decide
    have hk : containsCI 'k' "9" = false := by decide
    have hm : containsCI 'm' "9" = false := by decide
    have h3 : parseFloatParts "9".data = some (9, 0) := by decide
    simp only [parseMentions, h1, hk, hm, parseFloatTok, h3, Option.map_some',
      Bool.false_eq_true, if_false]
    norm_num

/-- C7 (amended): RANK sorts by ascending declared rank and MOVE by
non-increasing absolute 24-hour change, unconditionally; VOLUME sorts by
non-increasing parsed mentions magnitude provided every item's mentions string
parses to a numeric magnitude (a NaN magnitude can leave numeric items out of
order); on the mock batch "45.2K", "38.9K", "32.1K", "28.4K" the VOLUME sort
leaves the order unchanged and sorting the reversed input reproduces the same
ordering. -/
theorem filteredTrends_sort_laws :
    (∀ (sf : Option Sentiment) (trends : List TrendItem),
      (filteredTrends sf TrendSortMode.RANK trends).Pairwise
        (fun a b => a.rank ≤ b.rank)) ∧
    (∀ (sf : Option Sentiment) (trends : List TrendItem),
      (∀ t ∈ trends, (parseMentions t.mentions).isSome = true) →
      (filteredTrends sf TrendSortMode.VOLUME trends).Pairwise
        (fun a b => (parseMentions b.mentions).getD 0 ≤ (parseMentions a.mentions).getD 0)) ∧
    (∀ (sf : Option Sentiment) (trends : List TrendItem),
      (filteredTrends sf TrendSortMode.MOVE trends).Pairwise
        (fun a b => |b.change| ≤ |a.change|)) ∧
    filteredTrends none TrendSortMode.VOLUME fallbackTrends = fallbackTrends ∧
    filteredTrends none TrendSortMode.VOLUME fallbackTrends.reverse = fallbackTrends := by
  have hpm1 : parseMentions "45.2K" = some 45200 := by
    have h1 : firstNumTok ("45.2K".data.filter (fun c => c ≠ ',')) = some "45.2".data := by decide
    have h2 : containsCI 'k' "45.2K" = true := by decide
    have h3 : parseFloatParts "45.2".data = some (452, 1) := by decide
    simp only [parseMentions, h1, h2, parseFloatTok, h3, Option.map_some', if_pos]
    norm_num
  have hpm2 : parseMentions "38.9K" = some 38900 := by
    have h1 : firstNumTok ("38.9K".data.filter (fun c => c ≠ ',')) = some "38.9".data := by decide
    have h2 : containsCI 'k' "38.9K" = true := by decide
    have h3 : parseFloatParts "38.9".data = some (389, 1) := by decide
    simp only [parseMentions, h1, h2, parseFloatTok, h3, Option.map_some', if_pos]
    norm_num
  have hpm3 : parseMentions "32.1K" = some 32100 := by
    have h1 : firstNumTok ("32.1K".data.filter (fun c => c ≠ ',')) = some "32.1".data := by decide
    have h2 : containsCI 'k' "32.1K" = true := by decide
    have h3 : parseFloatParts "32.1".data = some (321, 1) := by decide
    simp only [parseMentions, h1, h2, parseFloatTok, h3, Option.map_some', if_pos]
    norm_num
  have hpm4 : parseMentions "28.4K" = some 28400 := by
    have h1 : firstNumTok ("28.4K".data.filter (fun c => c ≠ ',')) = some "28.4".data := by decide
    have h2 : containsCI 'k' "28.4K" = true := by decide
    have h3 : parseFloatParts "28.4".data = some (284, 1) := by decide
    simp only [parseMentions, h1, h2, parseFloatTok, h3, Option.map_some', if_pos]
    norm_num
  refine ⟨?_, ?_, ?_, ?_, ?_⟩
  · intro sf trends
    show (sortByOrd (cmpLe (trendCmp TrendSortMode.RANK)) (trendBase sf trends)).Pairwise _
    rw [rankCmp_eq_lex]
    refine List.Pairwise.imp ?_ (pairwise_sortByOrd_lex _ _ _)
    intro a b h
    rcases (cmpLe_lexCmp_iff _ _ a b).mp h with h1 | ⟨h1, _⟩
    · exact_mod_cast h1.le
    · exact_mod_cast h1.le
  · intro sf trends htr
    have hsub : ∀ t ∈ trendBase sf trends, (parseMentions t.mentions).isSome = true :=
      fun t ht => htr t (mem_trendBase ht)
    show (sortByOrd (cmpLe (trendCmp TrendSortMode.VOLUME)) (trendBase sf trends)).Pairwise _
    have hcong : ∀ x ∈ trendBase sf trends, ∀ y ∈ trendBase sf trends,
        cmpLe (trendCmp TrendSortMode.VOLUME) x y
          = cmpLe (lexCmp (fun t : TrendItem => -((parseMentions t.mentions).getD 0))
              (fun _ => (0 : ℚ))) x y := by
      intro x hx y hy
      obtain ⟨vx, hvx⟩ := Option.isSome_iff_exists.mp (hsub x hx)
      obtain ⟨vy, hvy⟩ := Option.isSome_iff_exists.mp (hsub y hy)
      have heq : trendCmp TrendSortMode.VOLUME x y
          = lexCmp (fun t : TrendItem => -((parseMentions t.mentions).getD 0))
              (fun _ => (0 : ℚ)) x y := by
        simp only [trendCmp, lexCmp, hvx, hvy, Option.getD_some, sub_zero, jsOr_zero]
        ring
      simp only [cmpLe, heq]
    rw [sortByOrd_congr hcong]
    refine List.Pairwise.imp ?_ (pairwise_sortByOrd_lex _ _ _)
    intro a b h
    rcases (cmpLe_lexCmp_iff _ _ a b).mp h with h1 | ⟨h1, _⟩
    · exact (neg_lt_neg_iff.mp h1).le
    · exact le_of_eq (neg_inj.mp h1).symm
  · intro sf trends
    show (sortByOrd (cmpLe (trendCmp TrendSortMode.MOVE)) (trendBase sf trends)).Pairwise _
    rw [moveCmp_eq_lex]
    refine List.Pairwise.imp ?_ (pairwise_sortByOrd_lex _ _ _)
    intro a b h
    rcases (cmpLe_lexCmp_iff _ _ a b).mp h with h1 | ⟨h1, _⟩
    · exact (neg_lt_neg_iff.mp h1).le
    · exact le_of_eq (neg_inj.mp h1).symm
  · norm_num [filteredTrends, trendBase, fallbackTrends, sortByOrd, List.foldr,
      insertOrd, cmpLe, trendCmp, hpm1, hpm2, hpm3, hpm4]
  · have hrev : fallbackTrends.reverse = fallbackTrendsRev := by rfl
    rw [hrev]
    norm_num [filteredTrends, trendBase, fallbackTrendsRev, fallbackTrends, sortByOrd,
      List.foldr, insertOrd, cmpLe, trendCmp, hpm1, hpm2, hpm3, hpm4]

/-- C7 witness: the conditional VOLUME law applied at the mock batch, whose
four mentions strings all parse. -/
theorem filteredTrends_sort_laws_witness :
    (filteredTrends none TrendSortMode.VOLUME fallbackTrends).Pairwise
      (fun a b => (parseMentions b.mentions).getD 0 ≤ (parseMentions a.mentions).getD 0) :=
  filteredTrends_sort_laws.2.1 none fallbackTrends (by decide)

